import Mathlib

/-!
Shallow embedding of `electrum/invoices.py` (electrum-ravencoin): the invoice
data model, amount validation, output normalization, JSON-dispatch factory and
status resolution, together with theorems settling the specification claims.

External collaborators of `invoices.py` that live in repository files not under
`src/` (`ravencoin.py`, `transaction.py`, `util.py`, `lnaddr.py`) are modelled
from the spec's interface descriptions (§6), marked `Modelled from the spec:`
in their doc comments.  The lightning codec `lndecode` is kept abstract: every
theorem about it quantifies over an arbitrary decode function.
-/

namespace Invoices

/-- Modelled from the spec: `COIN` from `ravencoin.py` (not under `src/`), the
number of smallest on-chain units per coin.  The claims depend only on it
being a fixed positive constant. -/
def COIN : ℤ := 100000000

/-- Modelled from the spec: `TOTAL_COIN_SUPPLY_LIMIT_IN_BTC` from
`ravencoin.py` (not under `src/`), the coin supply ceiling.  The claims depend
only on it being a fixed positive constant. -/
def TOTAL_COIN_SUPPLY_LIMIT_IN_BTC : ℤ := 21000000000

-- types of payment requests (invoices.py lines 21-22)
def PR_TYPE_ONCHAIN : ℤ := 0
def PR_TYPE_LN : ℤ := 2

-- status of payment requests (invoices.py lines 25-32)
def PR_UNPAID : ℤ := 0
def PR_EXPIRED : ℤ := 1
def PR_UNKNOWN : ℤ := 2
def PR_PAID : ℤ := 3
def PR_INFLIGHT : ℤ := 4
def PR_FAILED : ℤ := 5
def PR_ROUTING : ℤ := 6
def PR_UNCONFIRMED : ℤ := 7

/-- Source `pr_tooltips` (invoices.py lines 45-54): status code → fixed label. -/
def pr_tooltips : List (ℤ × String) :=
  [(PR_UNPAID, "Unpaid"),
   (PR_PAID, "Paid"),
   (PR_UNKNOWN, "Unknown"),
   (PR_EXPIRED, "Expired"),
   (PR_INFLIGHT, "In progress"),
   (PR_FAILED, "Failed"),
   (PR_ROUTING, "Computing route..."),
   (PR_UNCONFIRMED, "Unconfirmed")]

/-- Source `LN_EXPIRY_NEVER = 100 * 365 * 24 * 60 * 60` (invoices.py line 83). -/
def LN_EXPIRY_NEVER : ℤ := 100 * 365 * 24 * 60 * 60

/-- Modelled from the spec: `Satoshis` from `util.py` (not under `src/`), a
value object wrapping a count of the smallest unit.  `Decimal` arithmetic is
embedded as exact rational arithmetic. -/
structure Satoshis where
  val : ℚ
deriving DecidableEq, Repr

/-- Modelled from the spec: `RavenValue` from `transaction.py` (not under
`src/`), the monetary value object; `rvn_value` is its satoshi component,
as compared against the supply bound by `_validate_amount`. -/
structure RavenValue where
  rvn_value : Satoshis
deriving DecidableEq, Repr

/-- Source `RavenValue(n)` — construction from a bare integer satoshi count. -/
def RavenValue.ofInt (n : ℤ) : RavenValue := ⟨⟨(n : ℚ)⟩⟩

/-- Source `RavenValue()` — default construction, a zero value. -/
def RavenValue.empty : RavenValue := ⟨⟨0⟩⟩

/-- Python truthiness of a `RavenValue`.  Modelled from the spec: the spec
describes the value object as a wrapped non-negative integer count; a zero
value is falsy, a non-zero value truthy.  (`get_amount_sat` below gives the
same answer under either truthiness convention, since the falsy branch
substitutes the default zero value.) -/
def RavenValue.toBool (v : RavenValue) : Bool := v.rvn_value.val ≠ 0

/-- The exception kinds the embedded code can raise.  `invoiceError` is
`InvoiceError` from `util.py`; `typeError` is Python's `TypeError` (raised at
call time for unexpected or missing keyword arguments, and by
`attr.validators.instance_of`); `codecError` stands for whatever exception the
external `lndecode` codec raises on malformed input. -/
inductive PyError
  | invoiceError (msg : String)
  | typeError (msg : String)
  | codecError
deriving DecidableEq, Repr

/-- A Python scalar, as far as legacy output tuples can hold one. -/
inductive PyScalar
  | pint (n : ℤ)
  | pstr (s : String)
  | pnone
deriving DecidableEq, Repr

/-- Modelled from the spec: `PartialTxOutput` from `transaction.py` (not under
`src/`) — a canonical transaction output, "an address/destination plus an
amount" (§3), constructible from a legacy positional tuple (§6). -/
structure PartialTxOutput where
  address : String
  value : ℤ
deriving DecidableEq, Repr

/-- One entry of a stored outputs list: either already a `PartialTxOutput`, or
a legacy positional tuple of scalars. -/
inductive OutputRepr
  | canonical (o : PartialTxOutput)
  | legacyTuple (t : List PyScalar)
deriving DecidableEq, Repr

/-- A JSON value, as far as the fields of the two invoice variants can
distinguish one: a Python `int`, `str`, `None`, a `dict` decodable by
`RavenValue.from_json` (carried as its decoded value), or an outputs list. -/
inductive JValue
  | jint (n : ℤ)
  | jstr (s : String)
  | jnone
  | jrvdict (v : RavenValue)
  | jlist (l : List OutputRepr)
deriving DecidableEq, Repr

/-- Modelled from the spec: `PartialTxOutput.from_legacy_tuple` from
`transaction.py` (not under `src/`) — positional conversion of a legacy tuple
`(type, address, amount)`, failing (raising, embedded as `none`) on wrong
arity or wrong types (§4.2, §6). -/
def PartialTxOutput.from_legacy_tuple : List PyScalar → Option PartialTxOutput
  | [.pint _, .pstr a, .pint v] => some ⟨a, v⟩
  | _ => none

/-- Conversion of one outputs-list entry, as the loop body of
`_decode_outputs` treats it: a `PartialTxOutput` passes through, a legacy
tuple is converted by `from_legacy_tuple`, failure is `none`. -/
def decodeOneOutput : OutputRepr → Option PartialTxOutput
  | .canonical o => some o
  | .legacyTuple t => PartialTxOutput.from_legacy_tuple t

/-- Source `_decode_outputs` (invoices.py lines 67-76): normalize a mixed list,
appending each successfully converted entry and silently skipping (bare
`except: continue`) every entry whose conversion fails. -/
def _decode_outputs : List OutputRepr → List PartialTxOutput
  | [] => []
  | .canonical o :: rest => o :: _decode_outputs rest
  | .legacyTuple t :: rest =>
      match PartialTxOutput.from_legacy_tuple t with
      | some o => o :: _decode_outputs rest
      | none => _decode_outputs rest

/-- The candidate `amount_sat` value handed to `OnchainInvoice`, by the
Python runtime type `_validate_amount` dispatches on: `int`, `Dict` (carried
as its `RavenValue.from_json` decoding), `RavenValue`, `str`, or anything
else (`None`, floats, lists, ...). -/
inductive AmountCandidate
  | int (n : ℤ)
  | dict (v : RavenValue)
  | rv (v : RavenValue)
  | str (s : String)
  | other
deriving DecidableEq, Repr

/-- What `amount_sat` can hold after validation: a `RavenValue`, or the
literal sentinel string `"!"`. -/
inductive StoredAmount
  | rv (v : RavenValue)
  | bang
deriving DecidableEq, Repr

/-- The range check of `OnchainInvoice._validate_amount` (invoices.py line
143): `0 <= value.rvn_value <= TOTAL_COIN_SUPPLY_LIMIT_IN_BTC * COIN`, else
`InvoiceError`. -/
def OnchainInvoice.checkRange (v : RavenValue) : Except PyError StoredAmount :=
  if 0 ≤ v.rvn_value.val ∧
      v.rvn_value.val ≤ ((TOTAL_COIN_SUPPLY_LIMIT_IN_BTC * COIN : ℤ) : ℚ) then
    .ok (.rv v)
  else .error (.invoiceError "amount is out-of-bounds")

/-- Source `OnchainInvoice._validate_amount` (invoices.py lines 136-149): an `int`
or a `Dict` is first normalized to a `RavenValue` (reassigning the field); a
`RavenValue` is range-checked; a `str` must be the sentinel `"!"`; anything
else raises `InvoiceError`.  Returns the normalized stored field. -/
def OnchainInvoice.validate_amount : AmountCandidate → Except PyError StoredAmount
  | .int n => OnchainInvoice.checkRange (RavenValue.ofInt n)
  | .dict v => OnchainInvoice.checkRange v
  | .rv v => OnchainInvoice.checkRange v
  | .str s =>
      if s = "!" then .ok .bang
      else .error (.invoiceError "unexpected amount")
  | .other => .error (.invoiceError "unexpected amount")

/-- Source `OnchainInvoice` (invoices.py lines 117-164).  Fields whose attrs
declarations carry no runtime validator (`type`, `message`, `id`, `bip70`,
`requestor`) are stored as the arbitrary JSON values they were given; `exp`,
`time` and `height` are validated `instance_of(int)`; `amount_sat` is the
validated stored amount; `outputs` is the converter's normalized list. -/
structure OnchainInvoice where
  type : JValue
  message : JValue
  amount_sat : StoredAmount
  exp : ℤ
  time : ℤ
  id : JValue
  outputs : List PartialTxOutput
  bip70 : JValue
  requestor : JValue
  height : ℤ
deriving DecidableEq, Repr

/-- Construction of an `OnchainInvoice` from already-typed arguments (the
attrs-generated `__init__`): the `outputs` converter `_decode_outputs` runs
at assignment and never raises; the `amount_sat` validator runs and may raise
`InvoiceError`; on success the record is fully populated. -/
def OnchainInvoice.make (ty msg : JValue) (amount : AmountCandidate)
    (exp time : ℤ) (id : JValue) (outputs : List OutputRepr)
    (bip70 requestor : JValue) (height : ℤ) :
    Except PyError OnchainInvoice := do
  let a ← OnchainInvoice.validate_amount amount
  .ok ⟨ty, msg, a, exp, time, id, _decode_outputs outputs, bip70, requestor, height⟩

/-- The value `OnchainInvoice.get_amount_sat` returns: a `RavenValue` or the
sentinel string (`Union[RavenValue, str]`; the base docstring: "Returns a
decimal satoshi amount, or '!' or None."). -/
inductive AmountResult
  | rv (v : RavenValue)
  | str (s : String)
deriving DecidableEq, Repr

/-- Source `OnchainInvoice.get_amount_sat` (invoices.py lines 133-134):
`return self.amount_sat or RavenValue()`.  A stored `"!"` is a non-empty
Python string, hence truthy, and is returned as-is; a stored `RavenValue` is
returned as-is when truthy, with the falsy case yielding the default
`RavenValue()`. -/
def OnchainInvoice.get_amount_sat (inv : OnchainInvoice) : AmountResult :=
  match inv.amount_sat with
  | .rv v => if v.toBool then .rv v else .rv RavenValue.empty
  | .bang => .str "!"

/-- Modelled from the spec: `LnAddr` from `lnaddr.py` (not under `src/`), the
structure the external codec decodes an opaque invoice string into
(§6: `{amount, expiry, timestamp, description, payment_hash, public_key}`).
`amount` is an optional `Decimal` number of whole coins, embedded as an exact
rational. -/
structure LnAddr where
  amount : Option ℚ
  date : ℤ
  paymenthash : List ℕ
  description : String
  expiry : ℤ
deriving DecidableEq, Repr

/-- Source `LnAddr.get_expiry()`, per the modelled interface. -/
def LnAddr.get_expiry (a : LnAddr) : ℤ := a.expiry

/-- Source `LnAddr.get_description()`, per the modelled interface. -/
def LnAddr.get_description (a : LnAddr) : String := a.description

/-- Hexadecimal rendering of one byte (`bytes.hex()` on one byte). -/
def byteHex (n : ℕ) : String :=
  let ds := "0123456789abcdef".toList
  String.mk [ds.getD (n / 16 % 16) 'x', ds.getD (n % 16) 'x']

/-- Source `bytes.hex()` — hexadecimal rendering of a byte string. -/
def bytesHex (l : List ℕ) : String := String.join (l.map byteHex)

/-- The candidate `amount_msat` value handed to `LNInvoice`, by the Python
runtime type `LNInvoice._validate_amount` dispatches on: `None`, `int`, or
anything else. -/
inductive MsatCandidate
  | none_
  | int (n : ℤ)
  | other
deriving DecidableEq, Repr

/-- The lightning amount ceiling `TOTAL_COIN_SUPPLY_LIMIT_IN_BTC * COIN *
1000` (invoices.py line 182). -/
def msatCeiling : ℤ := TOTAL_COIN_SUPPLY_LIMIT_IN_BTC * COIN * 1000

/-- Source `LNInvoice._validate_amount` (invoices.py lines 177-185): `None` is
accepted; an `int` must lie in `[0, TOTAL_COIN_SUPPLY_LIMIT_IN_BTC * COIN *
1000]`; anything else raises `InvoiceError`. -/
def LNInvoice.validate_amount : MsatCandidate → Except PyError (Option ℤ)
  | .none_ => .ok none
  | .int n =>
      if 0 ≤ n ∧ n ≤ msatCeiling then .ok (some n)
      else .error (.invoiceError "amount is out-of-bounds")
  | .other => .error (.invoiceError "unexpected amount")

/-- Source `LNInvoice` (invoices.py lines 166-247).  `type` carries no runtime
validation and stores what it was given; `invoice` is the opaque string;
`amount_msat` the validated optional fallback; `lnaddrCache` is the private
`__lnaddr` memo, `None` at construction (the validator's decode result is
discarded). -/
structure LNInvoice where
  type : JValue
  invoice : String
  amount_msat : Option ℤ
  lnaddrCache : Option LnAddr
deriving DecidableEq, Repr

/-- Construction of an `LNInvoice` from already-typed arguments (the
attrs-generated `__init__`): the `invoice` validator runs `lndecode(value)`
purely as a well-formedness check, propagating the codec's exception on
failure and discarding the result; then the `amount_msat` validator runs.
The cache starts empty.  `d` is the abstract `lndecode` codec. -/
def LNInvoice.make (d : String → Option LnAddr) (ty : JValue) (invoice : String)
    (amount : MsatCandidate) : Except PyError LNInvoice :=
  match d invoice with
  | none => .error .codecError
  | some _ => do
      let m ← LNInvoice.validate_amount amount
      .ok ⟨ty, invoice, m, none⟩

/-- The result of one access to the lazily decoded address: the decoded value
(`none` embeds the codec's exception escaping `_lnaddr`), the invoice's state
after the access, and how many times the codec ran. -/
structure AccessResult where
  value : Option LnAddr
  state : LNInvoice
  decodes : ℕ
deriving DecidableEq, Repr

/-- Source `LNInvoice._lnaddr` (invoices.py lines 187-191): if the private cache is
`None`, run `lndecode` on the stored string and cache the result; return the
cache.  Instrumented with the number of codec runs the access performs. -/
def LNInvoice.lnaddr (d : String → Option LnAddr) (inv : LNInvoice) : AccessResult :=
  match inv.lnaddrCache with
  | some a => ⟨some a, inv, 0⟩
  | none =>
      match d inv.invoice with
      | some a => ⟨some a, { inv with lnaddrCache := some a }, 1⟩
      | none => ⟨none, inv, 1⟩

/-- Source `LNInvoice.rhash` (invoices.py lines 193-195):
`self._lnaddr.paymenthash.hex()`. -/
def LNInvoice.rhash (d : String → Option LnAddr) (inv : LNInvoice) :
    Option String × LNInvoice :=
  let r := inv.lnaddr d
  (r.value.map fun a => bytesHex a.paymenthash, r.state)

/-- Source `LNInvoice.exp` (invoices.py lines 208-210): `self._lnaddr.get_expiry()`. -/
def LNInvoice.exp (d : String → Option LnAddr) (inv : LNInvoice) :
    Option ℤ × LNInvoice :=
  let r := inv.lnaddr d
  (r.value.map LnAddr.get_expiry, r.state)

/-- Source `LNInvoice.time` (invoices.py lines 212-214): `self._lnaddr.date`. -/
def LNInvoice.time (d : String → Option LnAddr) (inv : LNInvoice) :
    Option ℤ × LNInvoice :=
  let r := inv.lnaddr d
  (r.value.map LnAddr.date, r.state)

/-- Source `LNInvoice.message` (invoices.py lines 216-218):
`self._lnaddr.get_description()`. -/
def LNInvoice.message (d : String → Option LnAddr) (inv : LNInvoice) :
    Option String × LNInvoice :=
  let r := inv.lnaddr d
  (r.value.map LnAddr.get_description, r.state)

/-- Python `int()` on an exact decimal: truncation toward zero. -/
def pyInt (q : ℚ) : ℤ := if 0 ≤ q then ⌊q⌋ else -⌊-q⌋

/-- The millisatoshi amount encoded in a decoded invoice, as
`LNInvoice.get_amount_msat` computes it:
`int(amount_btc * COIN * 1000) if amount_btc else None` — `None` when the
decoded amount is absent or zero (both falsy). -/
def lnEncodedMsat (a : LnAddr) : Option ℤ :=
  match a.amount with
  | none => none
  | some q => if q = 0 then none else some (pyInt (q * (COIN : ℚ) * 1000))

/-- Python `or` on optional integers: the left operand unless it is falsy
(`None` or `0`), in which case the right operand as given. -/
def pyOrInt : Option ℤ → Option ℤ → Option ℤ
  | some n, b => if n = 0 then b else some n
  | none, b => b

/-- The pure core of `LNInvoice.get_amount_msat` (invoices.py lines 197-200),
as a function of the decoded address and the stored fallback:
`return amount or self.amount_msat`. -/
def LNInvoice.get_amount_msat_of (a : LnAddr) (fallback : Option ℤ) : Option ℤ :=
  pyOrInt (lnEncodedMsat a) fallback

/-- The pure core of `LNInvoice.get_amount_sat` (invoices.py lines 202-206):
`None` when `get_amount_msat()` is `None`, else
`RavenValue(Satoshis(Decimal(amount_msat) / 1000))`. -/
def LNInvoice.get_amount_sat_of (a : LnAddr) (fallback : Option ℤ) : Option RavenValue :=
  match LNInvoice.get_amount_msat_of a fallback with
  | none => none
  | some m => some ⟨⟨(m : ℚ) / 1000⟩⟩

/-- Source `LNInvoice.get_amount_msat` with its lazy-decode state threading. -/
def LNInvoice.get_amount_msat (d : String → Option LnAddr) (inv : LNInvoice) :
    Option (Option ℤ) × LNInvoice :=
  let r := inv.lnaddr d
  (r.value.map fun a => LNInvoice.get_amount_msat_of a inv.amount_msat, r.state)

/-- Source `LNInvoice.get_amount_sat` with its lazy-decode state threading. -/
def LNInvoice.get_amount_sat (d : String → Option LnAddr) (inv : LNInvoice) :
    Option (Option RavenValue) × LNInvoice :=
  let r := inv.lnaddr d
  (r.value.map fun a => LNInvoice.get_amount_sat_of a inv.amount_msat, r.state)

/-- A JSON record: a Python dict, embedded as an association list of
key/value pairs (first occurrence wins on lookup). -/
def JDict := List (String × JValue)

/-- Source `x.get(k)` — `none` when the key is absent. -/
def JDict.get (x : JDict) (k : String) : Option JValue :=
  (List.find? (fun p => p.1 = k) x).map (·.2)

/-- Source `x[k]` under a guarantee of presence, defaulting to `None`. -/
def JDict.getD (x : JDict) (k : String) : JValue :=
  (x.get k).getD .jnone

/-- The keys of a record. -/
def JDict.keys (x : JDict) : List String := x.map (·.1)

/-- The keyword parameters the attrs-generated `OnchainInvoice.__init__`
declares: base `type` plus the variant's own fields, all mandatory. -/
def onchainFields : List String :=
  ["type", "message", "amount_sat", "exp", "time", "id", "outputs", "bip70",
   "requestor", "height"]

/-- The keyword parameters the attrs-generated `LNInvoice.__init__` declares:
base `type`, `invoice`, `amount_msat` (the lightning `message`/`exp`/`time`
are read-only properties, not init parameters), all mandatory. -/
def lnFields : List String := ["type", "invoice", "amount_msat"]

/-- Whether calling a constructor with record `x` passes a keyword argument
outside the declared list — Python raises `TypeError` for it. -/
def JDict.hasUndeclared (x : JDict) (declared : List String) : Bool :=
  x.keys.any fun k => !(declared.contains k)

/-- Whether record `x` omits one of the mandatory keyword arguments — Python
raises `TypeError` for it. -/
def JDict.missesRequired (x : JDict) (declared : List String) : Bool :=
  declared.any fun k => !(x.keys.contains k)

/-- How the runtime type of a JSON value maps onto the cases of
`OnchainInvoice._validate_amount`. -/
def JValue.toAmountCandidate : JValue → AmountCandidate
  | .jint n => .int n
  | .jrvdict v => .dict v
  | .jstr s => .str s
  | .jnone => .other
  | .jlist _ => .other

/-- How the runtime type of a JSON value maps onto the cases of
`LNInvoice._validate_amount`. -/
def JValue.toMsatCandidate : JValue → MsatCandidate
  | .jnone => .none_
  | .jint n => .int n
  | _ => .other

/-- Source `attr.validators.instance_of(int)` — `TypeError` unless the value is an
integer. -/
def JValue.asInt : JValue → Except PyError ℤ
  | .jint n => .ok n
  | _ => .error (.typeError "must be int")

/-- The `outputs` converter applied to a JSON value: `_decode_outputs`
iterates its argument, so a non-list raises `TypeError` before any validator
runs. -/
def JValue.asOutputs : JValue → Except PyError (List PartialTxOutput)
  | .jlist l => .ok (_decode_outputs l)
  | _ => .error (.typeError "not iterable")

/-- Source `OnchainInvoice(**x)`: Python first rejects unexpected and missing
keyword arguments with `TypeError`; the attrs init then runs the `outputs`
converter at assignment, and then the validators in field order —
`amount_sat`, then `instance_of(int)` on `exp`, `time`, `height`. -/
def OnchainInvoice.from_dict (x : JDict) : Except PyError OnchainInvoice :=
  if x.hasUndeclared onchainFields then
    .error (.typeError "unexpected keyword argument")
  else if x.missesRequired onchainFields then
    .error (.typeError "missing keyword argument")
  else do
    let outs ← (x.getD "outputs").asOutputs
    let a ← OnchainInvoice.validate_amount (x.getD "amount_sat").toAmountCandidate
    let e ← (x.getD "exp").asInt
    let t ← (x.getD "time").asInt
    let h ← (x.getD "height").asInt
    .ok ⟨x.getD "type", x.getD "message", a, e, t, x.getD "id", outs,
         x.getD "bip70", x.getD "requestor", h⟩

/-- Source `LNInvoice(**x)`: Python first rejects unexpected and missing keyword
arguments with `TypeError`; the `invoice` validator then hands the value to
`lndecode`, which fails on anything that is not a well-formed invoice string;
then the `amount_msat` validator runs. -/
def LNInvoice.from_dict (d : String → Option LnAddr) (x : JDict) :
    Except PyError LNInvoice :=
  if x.hasUndeclared lnFields then
    .error (.typeError "unexpected keyword argument")
  else if x.missesRequired lnFields then
    .error (.typeError "missing keyword argument")
  else
    match x.getD "invoice" with
    | .jstr s => LNInvoice.make d (x.getD "type") s (x.getD "amount_msat").toMsatCandidate
    | _ => .error .codecError

/-- The two concrete invoice variants `Invoice.from_json` can produce. -/
inductive InvoiceSum
  | onchain (i : OnchainInvoice)
  | ln (i : LNInvoice)
deriving DecidableEq, Repr

/-- Source `Invoice.from_json` (invoices.py lines 108-114): dispatch on
`x.get('type') == PR_TYPE_LN` — equal to the integer `2` selects `LNInvoice`,
anything else (a different value, a non-integer, or an absent key) falls
through to `OnchainInvoice`. -/
def Invoice.from_json (d : String → Option LnAddr) (x : JDict) :
    Except PyError InvoiceSum :=
  if x.get "type" = some (.jint PR_TYPE_LN) then
    (LNInvoice.from_dict d x).map .ln
  else
    (OnchainInvoice.from_dict x).map .onchain

/-- Modelled from the spec: `age` from `util.py` (not under `src/`) — renders
a relative countdown string determined by the absolute expiration timestamp
it is given. -/
def age (expiration : ℤ) : String := "in " ++ toString expiration

/-- Source `Invoice.get_status_str` (invoices.py lines 96-102), as a function of the
invoice's `exp` and `time` fields: look the status up in `pr_tooltips`
(`none` embeds the `KeyError` on an unknown code); when the status is
`PR_UNPAID` and `self.exp > 0 and self.exp != LN_EXPIRY_NEVER`, replace the
label by `'Expires' + ' ' + age(self.exp + self.time)`. -/
def Invoice.get_status_str (exp time status : ℤ) : Option String :=
  match pr_tooltips.lookup status with
  | none => none
  | some s =>
      if status = PR_UNPAID ∧ exp > 0 ∧ exp ≠ LN_EXPIRY_NEVER then
        some ("Expires" ++ " " ++ age (exp + time))
      else
        some s

/-- The amount candidates `OnchainInvoice._validate_amount` rejects: numeric
values out of `[0, TOTAL_COIN_SUPPLY_LIMIT_IN_BTC * COIN]`, a string other
than `"!"`, and every non-numeric non-string representation. -/
def onchainAmountBad : AmountCandidate → Bool
  | .int n =>
      !decide (0 ≤ n ∧ n ≤ TOTAL_COIN_SUPPLY_LIMIT_IN_BTC * COIN)
  | .dict v =>
      !decide (0 ≤ v.rvn_value.val ∧
        v.rvn_value.val ≤ ((TOTAL_COIN_SUPPLY_LIMIT_IN_BTC * COIN : ℤ) : ℚ))
  | .rv v =>
      !decide (0 ≤ v.rvn_value.val ∧
        v.rvn_value.val ≤ ((TOTAL_COIN_SUPPLY_LIMIT_IN_BTC * COIN : ℤ) : ℚ))
  | .str s => !decide (s = "!")
  | .other => true

/-- The amount candidates `LNInvoice._validate_amount` rejects: integers out
of `[0, TOTAL_COIN_SUPPLY_LIMIT_IN_BTC * COIN * 1000]` and every non-`None`
non-integer representation. -/
def msatBad : MsatCandidate → Bool
  | .none_ => false
  | .int n => !decide (0 ≤ n ∧ n ≤ msatCeiling)
  | .other => true

/-- A concrete decoded address, for witnesses. -/
def sampleLnAddr : LnAddr := ⟨none, 0, [], "", 0⟩

/-- A codec that decodes every string to `sampleLnAddr`, for witnesses. -/
def sampleCodec : String → Option LnAddr := fun _ => some sampleLnAddr

/-- C8: `_decode_outputs` passes canonical entries through unchanged,
converts legacy tuples positionally, silently drops entries whose conversion
fails, and preserves the relative order of the survivors: it is exactly the
order-preserving `filterMap` of the single-entry conversion, so the result
can be shorter than the input but never reordered. -/
theorem c8_decode_outputs_normalizes (l : List OutputRepr) :
    _decode_outputs l = l.filterMap decodeOneOutput ∧
    (_decode_outputs l).length ≤ l.length := by
  have he : _decode_outputs l = l.filterMap decodeOneOutput := by
    induction l with
    | nil => rfl
    | cons hd tl ih =>
        cases hd with
        | canonical o =>
            simp [_decode_outputs, decodeOneOutput, List.filterMap_cons, ih]
        | legacyTuple t =>
            cases h : PartialTxOutput.from_legacy_tuple t <;>
              simp [_decode_outputs, decodeOneOutput, List.filterMap_cons, h, ih]
  refine ⟨he, ?_⟩
  rw [he]
  exact List.length_filterMap_le decodeOneOutput l

/-- C10: `get_status_str` treats `exp = LN_EXPIRY_NEVER`
(`100*365*24*60*60`) exactly like `exp = 0`: an unpaid invoice with that
expiry gets the plain `Unpaid` label for every creation time, never a
countdown. -/
theorem c10_ln_expiry_never_plain_label :
    LN_EXPIRY_NEVER = 100 * 365 * 24 * 60 * 60 ∧
    ∀ time : ℤ,
      Invoice.get_status_str LN_EXPIRY_NEVER time PR_UNPAID = some "Unpaid" := by
  refine ⟨rfl, fun time => ?_⟩
  simp [Invoice.get_status_str, pr_tooltips, PR_UNPAID, List.lookup]

/-- C9 counterexample: `LN_EXPIRY_NEVER` is a finite positive expiry, yet an
unpaid invoice with that expiry gets the plain `Unpaid` label, not a relative
countdown referencing `time + exp` — the claim's countdown clause fails at
`exp = LN_EXPIRY_NEVER`, `time = 0`. -/
theorem c9_counterexample_expiry_never :
    0 < LN_EXPIRY_NEVER ∧
    Invoice.get_status_str LN_EXPIRY_NEVER 0 PR_UNPAID = some "Unpaid" ∧
    Invoice.get_status_str LN_EXPIRY_NEVER 0 PR_UNPAID ≠
      some ("Expires" ++ " " ++ age (LN_EXPIRY_NEVER + 0)) := by
  have h1 : Invoice.get_status_str LN_EXPIRY_NEVER 0 PR_UNPAID = some "Unpaid" := by
    simp [Invoice.get_status_str, pr_tooltips, PR_UNPAID, List.lookup]
  refine ⟨by decide, h1, ?_⟩
  rw [h1]
  decide

/-- C9 (amended): with status unpaid, a positive expiry *other than
`LN_EXPIRY_NEVER`* yields the relative countdown referencing `time + exp`;
expiry `0` yields the plain `Unpaid` label regardless of `time`; and every
status other than unpaid maps to its fixed `pr_tooltips` label, independent
of `exp` and `time`. -/
theorem c9_status_resolution (exp time status : ℤ) :
    (status = PR_UNPAID → 0 < exp → exp ≠ LN_EXPIRY_NEVER →
      Invoice.get_status_str exp time status =
        some ("Expires" ++ " " ++ age (exp + time))) ∧
    (status = PR_UNPAID →
      Invoice.get_status_str 0 time status = some "Unpaid") ∧
    (status ≠ PR_UNPAID →
      Invoice.get_status_str exp time status = pr_tooltips.lookup status) := by
  refine ⟨?_, ?_, ?_⟩
  · rintro rfl hpos hne
    simp [Invoice.get_status_str, pr_tooltips, PR_UNPAID, List.lookup, hpos, hne]
  · rintro rfl
    simp [Invoice.get_status_str, pr_tooltips, PR_UNPAID, List.lookup]
  · intro hne
    unfold Invoice.get_status_str
    cases h : pr_tooltips.lookup status with
    | none => rfl
    | some s => simp [hne]

/-- C9 witness: the amended theorem at `exp = 3600`, `time = 5`,
status unpaid. -/
theorem c9_status_resolution_witness :
    Invoice.get_status_str 3600 5 PR_UNPAID =
      some ("Expires" ++ " " ++ age (3600 + 5)) :=
  (c9_status_resolution 3600 5 PR_UNPAID).1 rfl (by decide) (by decide)

/-- C2: for every integer `a` with `0 ≤ a ≤ TOTAL_COIN_SUPPLY_LIMIT_IN_BTC *
COIN` (boundaries included), constructing an `OnchainInvoice` with
`amount_sat = a` and any other (well-typed) fields succeeds, and
`get_amount_sat()` on the result is the monetary value with satoshi
component `a`. -/
theorem c2_onchain_amount_roundtrip (a : ℤ) (h0 : 0 ≤ a)
    (h1 : a ≤ TOTAL_COIN_SUPPLY_LIMIT_IN_BTC * COIN)
    (ty msg idv b r : JValue) (e t h : ℤ) (outs : List OutputRepr) :
    ∃ inv, OnchainInvoice.make ty msg (.int a) e t idv outs b r h = .ok inv ∧
      inv.get_amount_sat = .rv (RavenValue.ofInt a) := by
  have hq0 : 0 ≤ ((a : ℚ)) := by exact_mod_cast h0
  have hq1 : ((a : ℚ)) ≤ (TOTAL_COIN_SUPPLY_LIMIT_IN_BTC : ℚ) * (COIN : ℚ) := by
    exact_mod_cast h1
  refine ⟨⟨ty, msg, .rv (RavenValue.ofInt a), e, t, idv, _decode_outputs outs,
      b, r, h⟩, ?_, ?_⟩
  · simp [OnchainInvoice.make, OnchainInvoice.validate_amount,
      OnchainInvoice.checkRange, RavenValue.ofInt, hq0, hq1, bind, Except.bind]
  · by_cases ha : (a : ℚ) = 0
    · simp [OnchainInvoice.get_amount_sat, RavenValue.toBool, RavenValue.ofInt,
        RavenValue.empty, ha]
    · simp [OnchainInvoice.get_amount_sat, RavenValue.toBool, RavenValue.ofInt, ha]

/-- C2 witness: the theorem at the boundary `a = 0` with concrete fields. -/
theorem c2_onchain_amount_roundtrip_witness :
    ∃ inv, OnchainInvoice.make .jnone .jnone (.int 0) 0 0 .jnone [] .jnone
        .jnone 0 = .ok inv ∧
      inv.get_amount_sat = .rv (RavenValue.ofInt 0) :=
  c2_onchain_amount_roundtrip 0 (by decide) (by decide) .jnone .jnone .jnone
    .jnone .jnone 0 0 0 []

/-- C3 counterexample: constructing an `OnchainInvoice` with the sentinel
`amount_sat = "!"`, one output and `exp = 0` succeeds, but `get_amount_sat()`
returns the sentinel string `"!"` itself — not the zero-value monetary
amount the claim promises ("!" is a truthy Python string, so
`self.amount_sat or RavenValue()` never reaches the zero default). -/
theorem c3_counterexample_bang_passthrough :
    OnchainInvoice.make .jnone .jnone (.str "!") 0 0 .jnone
        [.canonical ⟨"addr", 1⟩] .jnone .jnone 0 =
      .ok ⟨.jnone, .jnone, .bang, 0, 0, .jnone, [⟨"addr", 1⟩], .jnone, .jnone, 0⟩ ∧
    OnchainInvoice.get_amount_sat
        ⟨.jnone, .jnone, .bang, 0, 0, .jnone, [⟨"addr", 1⟩], .jnone, .jnone, 0⟩ =
      .str "!" ∧
    AmountResult.str "!" ≠ .rv RavenValue.empty := by
  refine ⟨rfl, rfl, by decide⟩

/-- C3 (amended): constructing an `OnchainInvoice` with `amount_sat = "!"`,
one output and `exp = 0` succeeds, and `get_amount_sat()` returns the
sentinel `"!"` unchanged (the zero-value coercion in `get_amount_sat` applies
only to falsy stored amounts, which the non-empty string `"!"` is not). -/
theorem c3_bang_constructs_and_returns_sentinel (ty msg idv b r : JValue)
    (t h : ℤ) (o : PartialTxOutput) :
    ∃ inv, OnchainInvoice.make ty msg (.str "!") 0 t idv [.canonical o] b r h =
        .ok inv ∧
      inv.get_amount_sat = .str "!" := by
  refine ⟨⟨ty, msg, .bang, 0, t, idv, [o], b, r, h⟩, ?_, rfl⟩
  simp [OnchainInvoice.make, OnchainInvoice.validate_amount, _decode_outputs,
    bind, Except.bind]

/-- C1: a candidate amount of unrecognized representation, or numeric but
outside `[0, TOTAL_COIN_SUPPLY_LIMIT_IN_BTC * COIN]` (times 1000 for a
lightning `amount_msat`), makes construction of either variant return the
invoice validation error `InvoiceError` — no invoice value is produced. -/
theorem c1_bad_amount_raises (cand : AmountCandidate) (mc : MsatCandidate)
    (d : String → Option LnAddr) (s : String) (hs : (d s).isSome)
    (ty msg idv b r tyl : JValue) (e t h : ℤ) (outs : List OutputRepr) :
    (onchainAmountBad cand = true →
      ∃ m, OnchainInvoice.make ty msg cand e t idv outs b r h =
        .error (.invoiceError m)) ∧
    (msatBad mc = true →
      ∃ m, LNInvoice.make d tyl s mc = .error (.invoiceError m)) := by
  constructor
  · intro hbad
    cases cand with
    | int n =>
        refine ⟨"amount is out-of-bounds", ?_⟩
        have hzq : ¬(0 ≤ ((n : ℚ)) ∧
            ((n : ℚ)) ≤ ((TOTAL_COIN_SUPPLY_LIMIT_IN_BTC * COIN : ℤ) : ℚ)) := by
          simp only [onchainAmountBad, Bool.not_eq_true',
            decide_eq_false_iff_not] at hbad
          intro hq
          exact hbad ⟨by exact_mod_cast hq.1, by exact_mod_cast hq.2⟩
        simp only [OnchainInvoice.make, OnchainInvoice.validate_amount,
          OnchainInvoice.checkRange, RavenValue.ofInt, bind, Except.bind]
        rw [if_neg hzq]
    | dict v =>
        refine ⟨"amount is out-of-bounds", ?_⟩
        simp only [onchainAmountBad, Bool.not_eq_eq_eq_not, Bool.not_true,
          decide_eq_false_iff_not, Int.cast_mul] at hbad
        simp [OnchainInvoice.make, OnchainInvoice.validate_amount,
          OnchainInvoice.checkRange, hbad, bind, Except.bind]
    | rv v =>
        refine ⟨"amount is out-of-bounds", ?_⟩
        simp only [onchainAmountBad, Bool.not_eq_eq_eq_not, Bool.not_true,
          decide_eq_false_iff_not, Int.cast_mul] at hbad
        simp [OnchainInvoice.make, OnchainInvoice.validate_amount,
          OnchainInvoice.checkRange, hbad, bind, Except.bind]
    | str s' =>
        refine ⟨"unexpected amount", ?_⟩
        simp only [onchainAmountBad, Bool.not_eq_eq_eq_not, Bool.not_true,
          decide_eq_false_iff_not] at hbad
        simp [OnchainInvoice.make, OnchainInvoice.validate_amount, hbad,
          bind, Except.bind]
    | other =>
        exact ⟨"unexpected amount", by
          simp [OnchainInvoice.make, OnchainInvoice.validate_amount,
            bind, Except.bind]⟩
  · intro hbad
    obtain ⟨a, ha⟩ := Option.isSome_iff_exists.mp hs
    cases mc with
    | none_ => simp [msatBad] at hbad
    | int n =>
        refine ⟨"amount is out-of-bounds", ?_⟩
        simp only [msatBad, Bool.not_eq_eq_eq_not, Bool.not_true,
          decide_eq_false_iff_not] at hbad
        simp [LNInvoice.make, LNInvoice.validate_amount, ha, hbad,
          bind, Except.bind]
    | other =>
        exact ⟨"unexpected amount", by
          simp [LNInvoice.make, LNInvoice.validate_amount, ha,
            bind, Except.bind]⟩

/-- C1 witness: the theorem at the out-of-range on-chain amount `-1` and an
unrecognized lightning amount representation, under a total codec. -/
theorem c1_bad_amount_raises_witness :
    (∃ m, OnchainInvoice.make .jnone .jnone (.int (-1)) 0 0 .jnone [] .jnone
        .jnone 0 = .error (.invoiceError m)) ∧
    (∃ m, LNInvoice.make sampleCodec .jnone "lnrvn1" .other =
        .error (.invoiceError m)) :=
  ⟨(c1_bad_amount_raises (.int (-1)) .other sampleCodec "lnrvn1" rfl .jnone
      .jnone .jnone .jnone .jnone .jnone 0 0 0 []).1 (by decide),
   (c1_bad_amount_raises (.int (-1)) .other sampleCodec "lnrvn1" rfl .jnone
      .jnone .jnone .jnone .jnone .jnone 0 0 0 []).2 (by decide)⟩

/-- C4: `get_amount_msat()` returns the millisatoshi amount encoded in the
decoded invoice (`int(amount_btc * COIN * 1000)`) when that amount is
present and non-zero, otherwise the fallback `amount_msat` supplied at
construction (itself possibly `None`); and `get_amount_sat()` is exactly the
millisatoshi amount scaled down by 1000 into the monetary value object,
`None` exactly when `get_amount_msat()` is `None`. -/
theorem c4_ln_amount_precedence (a : LnAddr) (f : Option ℤ) :
    ((∃ m, lnEncodedMsat a = some m ∧ m ≠ 0) →
      LNInvoice.get_amount_msat_of a f = lnEncodedMsat a) ∧
    ((lnEncodedMsat a = none ∨ lnEncodedMsat a = some 0) →
      LNInvoice.get_amount_msat_of a f = f) ∧
    LNInvoice.get_amount_sat_of a f =
      (LNInvoice.get_amount_msat_of a f).map (fun m => ⟨⟨(m : ℚ) / 1000⟩⟩) ∧
    (LNInvoice.get_amount_sat_of a f = none ↔
      LNInvoice.get_amount_msat_of a f = none) := by
  refine ⟨?_, ?_, ?_, ?_⟩
  · rintro ⟨m, hm, hm0⟩
    simp [LNInvoice.get_amount_msat_of, pyOrInt, hm, hm0]
  · rintro (hm | hm) <;> simp [LNInvoice.get_amount_msat_of, pyOrInt, hm]
  · cases h : LNInvoice.get_amount_msat_of a f <;>
      simp [LNInvoice.get_amount_sat_of, h]
  · cases h : LNInvoice.get_amount_msat_of a f <;>
      simp [LNInvoice.get_amount_sat_of, h]

/-- C4 witness: the theorem at a decoded amount of `0.02` coins with a
fallback of `5` msat — the encoded amount `2 * 10^9` msat wins, and
`get_amount_sat` scales it by 1000. -/
theorem c4_ln_amount_precedence_witness :
    LNInvoice.get_amount_msat_of ⟨some (2 / 100), 0, [], "", 0⟩ (some 5) =
      lnEncodedMsat ⟨some (2 / 100), 0, [], "", 0⟩ :=
  (c4_ln_amount_precedence ⟨some (2 / 100), 0, [], "", 0⟩ (some 5)).1
    ⟨2000000000, by norm_num [lnEncodedMsat, pyInt, COIN], by decide⟩

/-- C5: all derived accessors of an `LNInvoice` go through the `_lnaddr`
memo: on a freshly constructed record (cache `None`, decodable stored
string), two consecutive accesses — each post-processed by an arbitrary
accessor body `g` — return identical values, run the codec exactly once in
total, and move the cache exactly once, from `None` to the decoded value,
the second access leaving the state untouched. -/
theorem c5_lazy_decode_idempotent {α : Type} (g : LnAddr → α)
    (d : String → Option LnAddr) (inv : LNInvoice)
    (hd : (d inv.invoice).isSome) (hc : inv.lnaddrCache = none) :
    ((inv.lnaddr d).value.map g = (((inv.lnaddr d).state.lnaddr d).value.map g)) ∧
    (inv.lnaddr d).value = ((inv.lnaddr d).state.lnaddr d).value ∧
    (inv.lnaddr d).decodes + ((inv.lnaddr d).state.lnaddr d).decodes = 1 ∧
    (inv.lnaddr d).state.lnaddrCache = d inv.invoice ∧
    ((inv.lnaddr d).state.lnaddr d).state = (inv.lnaddr d).state := by
  obtain ⟨a, ha⟩ := Option.isSome_iff_exists.mp hd
  simp [LNInvoice.lnaddr, hc, ha]

/-- C5 witness: the theorem on a fresh concrete invoice under a total
codec. -/
theorem c5_lazy_decode_idempotent_witness :
    (LNInvoice.lnaddr sampleCodec ⟨.jnone, "z", none, none⟩).decodes +
      ((LNInvoice.lnaddr sampleCodec ⟨.jnone, "z", none, none⟩).state.lnaddr
        sampleCodec).decodes = 1 :=
  (c5_lazy_decode_idempotent id sampleCodec ⟨.jnone, "z", none, none⟩ rfl
    rfl).2.2.1

/-- C6: `Invoice.from_json` produces the lightning variant exactly when the
record's `type` field equals `PR_TYPE_LN = 2`, and the on-chain variant in
every other case — a different value, a non-integer value, or a missing
`type` key all fall through to `OnchainInvoice`. -/
theorem c6_from_json_dispatch (d : String → Option LnAddr) (x : JDict) :
    (x.get "type" = some (.jint PR_TYPE_LN) →
      ∀ i, Invoice.from_json d x = .ok i → ∃ l, i = .ln l) ∧
    (x.get "type" ≠ some (.jint PR_TYPE_LN) →
      ∀ i, Invoice.from_json d x = .ok i → ∃ o, i = .onchain o) := by
  constructor
  · intro ht i hi
    rw [Invoice.from_json, if_pos ht] at hi
    cases h : LNInvoice.from_dict d x with
    | error e => rw [h] at hi; exact absurd hi (by simp [Except.map])
    | ok l =>
        rw [h] at hi
        exact ⟨l, by simpa [Except.map] using hi.symm⟩
  · intro ht i hi
    rw [Invoice.from_json, if_neg ht] at hi
    cases h : OnchainInvoice.from_dict x with
    | error e => rw [h] at hi; exact absurd hi (by simp [Except.map])
    | ok o =>
        rw [h] at hi
        exact ⟨o, by simpa [Except.map] using hi.symm⟩

/-- C6 witness: a record with `type = 2` that constructs successfully yields
the lightning variant. -/
theorem c6_from_json_dispatch_witness :
    ∃ l, InvoiceSum.ln ⟨.jint 2, "z", none, none⟩ = .ln l :=
  (c6_from_json_dispatch sampleCodec
      [("type", .jint 2), ("invoice", .jstr "z"), ("amount_msat", .jnone)]).1
    rfl (.ln ⟨.jint 2, "z", none, none⟩) rfl

/-- A record with `type = 2` and an extra key `foo` undeclared on the
lightning variant, for the C7 counterexample and witness. -/
def xBadLN : JDict :=
  [("type", .jint 2), ("invoice", .jstr "z"), ("amount_msat", .jnone),
   ("foo", .jint 1)]

/-- C7 counterexample: `from_json` on a record with an extra field rejects it
with Python's `TypeError` (unexpected keyword argument), not with the
invoice validation error `InvoiceError` the claim names. -/
theorem c7_counterexample_extra_field_typeerror :
    Invoice.from_json sampleCodec xBadLN =
      .error (.typeError "unexpected keyword argument") ∧
    (match Invoice.from_json sampleCodec xBadLN with
      | .error (.invoiceError _) => False
      | _ => True) := by
  exact ⟨rfl, trivial⟩

/-- C7 (amended): a record containing a field not declared for the variant
selected by the discriminator is rejected — but by a `TypeError` raised at
the constructor call for the unexpected keyword argument, not by the
invoice-validation-error kind. -/
theorem c7_extra_field_rejected (d : String → Option LnAddr) (x : JDict)
    (h : (if x.get "type" = some (.jint PR_TYPE_LN) then
        x.hasUndeclared lnFields
      else x.hasUndeclared onchainFields) = true) :
    Invoice.from_json d x = .error (.typeError "unexpected keyword argument") := by
  rw [Invoice.from_json]
  by_cases ht : x.get "type" = some (.jint PR_TYPE_LN)
  · rw [if_pos ht] at h ⊢
    rw [LNInvoice.from_dict, if_pos h]
    rfl
  · rw [if_neg ht] at h ⊢
    rw [OnchainInvoice.from_dict, if_pos h]
    rfl

/-- C7 witness: the amended theorem at the concrete record `xBadLN`. -/
theorem c7_extra_field_rejected_witness :
    Invoice.from_json sampleCodec xBadLN =
      .error (.typeError "unexpected keyword argument") :=
  c7_extra_field_rejected sampleCodec xBadLN (by decide)

end Invoices
